import Mathlib

/-!
Shallow embedding of the smart-finanza ingestion core
(`src/backend/src/{tracker,db,categorizer,llm,constants}.py`) and proofs of
the frozen claims about it.

External collaborators (the MD5 digest from the `hashlib` module, the Python
float rendering, the LLM oracle responses, and the `pdfplumber`/`pandas` parse of
the raw file bytes) are modelled as components of an `Env` record: the code
under verification only ever uses them as deterministic functions, and every
theorem quantifies over the environment.  Wall-clock timestamps stored in
`processed_files` are omitted (they influence nothing).
-/

namespace SmartFinanza

/-- Python substring test `needle in haystack` on lists of characters. -/
def charsIn : List Char → List Char → Bool
  | n, [] => n.isEmpty
  | n, c :: t => n.isPrefixOf (c :: t) || charsIn n t

/-- Python substring test `needle in haystack` for strings. -/
def strIn (needle haystack : String) : Bool :=
  charsIn needle.data haystack.data

/-- Python `str.lower()` modelled on the ASCII range (structural, so the
kernel can evaluate it). -/
def pyLower (s : String) : String := ⟨s.data.map Char.toLower⟩

/-- Python `str.upper()` modelled on the ASCII range. -/
def pyUpper (s : String) : String := ⟨s.data.map Char.toUpper⟩

/-- The whitespace characters Python `str.strip()` removes. -/
def wsChar (c : Char) : Bool :=
  c == ' ' || c == '\t' || c == '\n' || c == '\r' || c == '\x0b' || c == '\x0c'

/-- Strip every occurrence of a character from a string. -/
def stripChar (c : Char) (s : String) : String :=
  ⟨s.data.filter (fun x => x ≠ c)⟩

/-- Python `str.strip()`. -/
def pyTrim (s : String) : String :=
  ⟨((s.data.dropWhile wsChar).reverse.dropWhile wsChar).reverse⟩

/-- Slicing `s[:n]`. -/
def pyTake (n : Nat) (s : String) : String := ⟨s.data.take n⟩

/-- Python `sep.join(xs)`. -/
def pyJoin (sep : String) (xs : List String) : String :=
  ⟨List.intercalate sep.data (xs.map String.data)⟩

/-- Truthiness of an optional string (`None` and `""` are falsy). -/
def strTruthy : Option String → Bool
  | none => false
  | some s => s ≠ ""

/-- A JSON scalar appearing in the oracle `amount` field: either a number
or a string (both occur, since models emit `100.0` or `"100.00"`). -/
inductive AmtVal where
  | num (q : ℚ)
  | str (s : String)
deriving DecidableEq, Repr

/-- Python truthiness of the `amount` field: absent, `0` and `""` are falsy. -/
def amtTruthy : Option AmtVal → Bool
  | none => false
  | some (.num q) => q ≠ 0
  | some (.str s) => s ≠ ""

/-- Rendering `str(x)` of an amount value; numbers are rendered by the environment
float formatter, supplied where it is used. -/
def amtStr (floatRepr : ℚ → String) : AmtVal → String
  | .num q => floatRepr q
  | .str s => s

/-- Decimal digits of a character list, accumulating into a natural. -/
def digitsVal (acc : Nat) : List Char → Nat
  | [] => acc
  | c :: t => digitsVal (acc * 10 + (c.toNat - 48)) t

def allDigits (l : List Char) : Bool := l.all (fun c => c.isDigit)

/-- The rational with the decimal value mantissa times ten to the power
`e - fracLen`, built with `mkRat` and integer arithmetic only so the kernel
can evaluate it. -/
def decValue (neg : Bool) (mant : Nat) (fracLen : Nat) (e : Int) : ℚ :=
  let mInt : Int := if neg then -(mant : Int) else (mant : Int)
  let p : Int := e - (fracLen : Int)
  if 0 ≤ p then mkRat (mInt * (10 : Int) ^ p.toNat) 1
  else mkRat mInt ((10 : Nat) ^ (-p).toNat)

/-- Python `abs` on a finite parsed value (kernel-evaluable). -/
def pyAbs (q : ℚ) : ℚ := if q < 0 then -q else q

/-- Result of a successful Python `float()`: a finite value, or the IEEE
NaN — `float("nan")` succeeds, and `abs` leaves NaN in place. -/
inductive PyNum where
  | fin (q : ℚ)
  | nan
deriving DecidableEq, Repr

/-- Python `abs` on a parsed amount: NaN stays NaN. -/
def pyAbsNum : PyNum → PyNum
  | .fin q => .fin (pyAbs q)
  | .nan => .nan

/-- Python `str()` of such a value: `str(float("nan"))` is exactly `nan`;
finite values are rendered by the given float formatter. -/
def pyNumStr (floatRepr : ℚ → String) : PyNum → String
  | .fin q => floatRepr q
  | .nan => "nan"

/-- The column value sqlite3 stores for a bound Python float: NaN is
converted to NULL, finite values to REAL. -/
def storedAmount : PyNum → Option ℚ
  | .fin q => some q
  | .nan => none

/-- Model of Python `float(s)`: optional sign, then either the literal
`nan` in any letter case — which succeeds and yields the IEEE NaN — or a
finite decimal literal (integer part, optional fractional part, optional
exponent).  The `inf`/`infinity` literals and underscored digit groups are
left outside the modelled domain: in Python they parse to infinities or to
ordinary finite values, whose absolute values (REAL Infinity, or the
finite number) satisfy every property claimed here, so their omission
changes the truth of no claim.  Returns `none` exactly when `float` raises
on the modelled domain. -/
def pyFloat (s : String) : Option PyNum :=
  let cs0 := (pyTrim s).data
  let (neg, cs) : Bool × List Char :=
    match cs0 with
    | '-' :: t => (true, t)
    | '+' :: t => (false, t)
    | t => (false, t)
  if cs.map Char.toLower = ['n', 'a', 'n'] then some .nan
  else
    -- split off an exponent part if present
    let (mant, expo) : List Char × Option (List Char) :=
      match cs.splitOn 'e', cs.splitOn 'E' with
      | [m, e], _ => (m, some e)
      | _, [m, e] => (m, some e)
      | _, _ => (cs, none)
    let expVal : Option Int :=
      match expo with
      | none => some 0
      | some ('-' :: d) => if d ≠ [] ∧ allDigits d then some (-(digitsVal 0 d : Int)) else none
      | some ('+' :: d) => if d ≠ [] ∧ allDigits d then some ((digitsVal 0 d : Int)) else none
      | some d => if d ≠ [] ∧ allDigits d then some ((digitsVal 0 d : Int)) else none
    match expVal with
    | none => none
    | some e =>
      match mant.splitOn '.' with
      | [intPart] =>
        if intPart ≠ [] ∧ allDigits intPart then
          some (.fin (decValue neg (digitsVal 0 intPart) 0 e))
        else none
      | [intPart, fracPart] =>
        if (intPart ≠ [] ∨ fracPart ≠ []) ∧ allDigits intPart ∧ allDigits fracPart then
          some (.fin (decValue neg (digitsVal 0 (intPart ++ fracPart)) fracPart.length e))
        else none
      | _ => none

/-- Blocks of `n + 1` consecutive elements: the 8192-byte blocks in which
`get_file_hash` streams a file, and the CSV row chunks. -/
def chunksOf {α : Type} (n : Nat) : List α → List (List α)
  | [] => []
  | b :: t => (b :: t.take n) :: chunksOf n (t.drop n)
termination_by l => l.length
decreasing_by simp [List.length_drop]; omega

theorem join_chunksOf {α : Type} (n : Nat) (l : List α) : (chunksOf n l).flatten = l := by
  obtain ⟨k, hl⟩ : ∃ k, l.length = k := ⟨l.length, rfl⟩
  induction k using Nat.strong_induction_on generalizing l with
  | _ k ih =>
    cases l with
    | nil => simp [chunksOf]
    | cons b t =>
      rw [chunksOf]
      simp only [List.flatten_cons]
      rw [ih ((t.drop n).length) (by simp at hl ⊢; omega) (t.drop n) rfl]
      simp [List.cons_append, List.take_append_drop]

/-! ## constants.py -/

/-- Model of `constants.TxnType`. -/
inductive TxnType where
  | DEBIT
  | CREDIT
deriving DecidableEq, Repr

def TxnType.value : TxnType → String
  | .DEBIT => "DEBIT"
  | .CREDIT => "CREDIT"

/-- Model of `constants.PaymentMethod`. -/
inductive PaymentMethod where
  | CREDIT_CARD
  | DEBIT_CARD
  | UPI
  | BANK_TRANSFER
  | CASH
  | UNKNOWN
deriving DecidableEq, Repr

def PaymentMethod.value : PaymentMethod → String
  | .CREDIT_CARD => "Credit Card"
  | .DEBIT_CARD => "Debit Card"
  | .UPI => "UPI"
  | .BANK_TRANSFER => "Bank Transfer"
  | .CASH => "Cash"
  | .UNKNOWN => "Unknown"

/-- Iteration order of `for pm in PaymentMethod` (declaration order). -/
def pmMembers : List PaymentMethod :=
  [.CREDIT_CARD, .DEBIT_CARD, .UPI, .BANK_TRANSFER, .CASH, .UNKNOWN]

/-- Model of `constants.FileType`. -/
inductive FileType where
  | PDF
  | CSV
deriving DecidableEq, Repr

/-! ## Data model -/

/-- A transaction candidate as decoded from the oracle JSON: every field
may be missing (`t.get` returns `None`). -/
structure Candidate where
  transaction_id : Option String := none
  date : Option String := none
  merchant : Option String := none
  amount : Option AmtVal := none
  txn_type : Option String := none
  payment_method : Option String := none
  notes : Option String := none
deriving DecidableEq, Repr

/-- A persisted row of the `transactions` table.  `id` is the AUTOINCREMENT
primary key; `date` may be NULL when the candidate had none; `amount` is
NULL (`none`) when sqlite3 was handed a NaN float, REAL otherwise. -/
structure Txn where
  id : Nat
  transaction_id : String
  date : Option String
  merchant : String
  amount : Option ℚ
  txn_type : String
  payment_method : String
  category : String
  notes : String
  source_file : String
deriving DecidableEq, Repr

/-- The persistent store: the three tables of `db.init_db` plus the next
AUTOINCREMENT id.  `processed_files` rows are (file_hash, filename); the
wall-clock `processed_date` column is omitted.  `category_map` rows are
(keyword, category) with `keyword` unique. -/
structure DBState where
  transactions : List Txn := []
  processed_files : List (String × String) := []
  category_map : List (String × String) := []
  nextId : Nat := 1
deriving DecidableEq, Repr

/-- One page as seen through `pdfplumber`: the tables returned by
`extract_tables` (each a list of rows, each row a list of possibly-NULL
cells) and the result of `extract_text` (`none` when extraction fails). -/
structure Page where
  tables : List (List (List (Option String)))
  text : Option String
deriving DecidableEq, Repr

/-- The parse of a file bytes under a given extension: a PDF pages, a
CSV data rows rendered as strings (`none` when `pd.read_csv` raises), or
an unrecognized extension. -/
inductive ParsedDoc where
  | pdf (pages : List Page)
  | csv (rows : Option (List String))
  | other
deriving DecidableEq, Repr

/-- The external world as deterministic functions: MD5 over bytes and over
strings (`hashlib.md5(...).hexdigest()`), Python float formatting
(`f-string` of a float), the two oracle calls (raw LLM reply text, `none`
modelling a raised exception), the `pdfplumber`/`pandas` parse of raw file
bytes given the filename extension, and the two environment-configured
sizes `ROW_BATCH_SIZE` and `CHUNK_SIZE_LINES`. -/
structure Env where
  md5_bytes : List Nat → String
  md5_str : String → String
  float_repr : ℚ → String
  oracle_chunk : String → FileType → Option (List Candidate)
  oracle_instrument : String → Option String
  parseDoc : List Nat → String → ParsedDoc
  row_batch_size : Nat := 1
  chunk_size_lines : Nat := 20

/-! ## db.py -/

/-- Model of `DatabaseEngine.is_file_processed`. -/
def is_file_processed (s : DBState) (file_hash : String) : Bool :=
  s.processed_files.any (fun p => p.1 == file_hash)

/-- Model of `DatabaseEngine.log_file_processed` (timestamp column omitted). -/
def log_file_processed (s : DBState) (file_hash filename : String) : DBState :=
  { s with processed_files := s.processed_files ++ [(file_hash, filename)] }

/-- db.py lines 87-94: match the candidate `payment_method` string against
the enum display values unless it is falsy or exactly `"Unknown"`; keep the
file-level default otherwise. -/
def resolve_payment_method (raw : Option String) (default_method : PaymentMethod) :
    PaymentMethod :=
  match raw with
  | none => default_method
  | some r =>
    if r ≠ "" ∧ r ≠ "Unknown" then
      match pmMembers.find? (fun pm => pyLower pm.value == pyLower r) with
      | some pm => pm
      | none => default_method
    else default_method

/-- db.py lines 96-100: `t.get("txn_type", "DEBIT")`, CREDIT only on a
case-insensitive exact "CREDIT". -/
def resolve_txn_type (raw : Option String) : TxnType :=
  if pyUpper (raw.getD "DEBIT") == "CREDIT" then .CREDIT else .DEBIT

/-- db.py lines 102-106: `abs(float(str(t["amount"]).replace(",", "")))`;
`none` models the exception path (row skipped).  A `nan` amount parses
successfully and `abs` leaves it NaN — the row is NOT skipped. -/
def clean_amount (env : Env) (v : AmtVal) : Option PyNum :=
  (pyFloat (stripChar (Char.ofNat 44) (amtStr env.float_repr v))).map pyAbsNum

/-- Rendering of an optional string in an f-string (`None` renders as "None"). -/
def pyStrOpt : Option String → String
  | none => "None"
  | some s => s

/-- db.py lines 113-115: `"GEN-" + md5(f"{date}{merchant}{amt}")[:8]`. -/
def gen_pseudo_id (env : Env) (t : Candidate) (amt : PyNum) : String :=
  "GEN-" ++ pyTake 8 (env.md5_str
    (pyStrOpt t.date ++ pyStrOpt t.merchant ++ pyNumStr env.float_repr amt))

/-- db.py lines 108-116: the candidate own id when truthy, else the
generated pseudo-id. -/
def resolve_tx_id (env : Env) (t : Candidate) (amt : PyNum) : String :=
  match t.transaction_id with
  | some i => if i = "" then gen_pseudo_id env t amt else i
  | none => gen_pseudo_id env t amt

/-- The row the INSERT writes for a candidate that passed the guards
(db.py lines 117-131): the category column takes its schema default. -/
def insertedRow (env : Env) (filename : String) (default_method : PaymentMethod)
    (t : Candidate) (amt : PyNum) (s : DBState) : Txn :=
  { id := s.nextId
    transaction_id := resolve_tx_id env t amt
    date := t.date
    merchant := t.merchant.getD ""
    amount := storedAmount amt
    txn_type := (resolve_txn_type t.txn_type).value
    payment_method := (resolve_payment_method t.payment_method default_method).value
    category := "Uncategorized"
    notes := t.notes.getD ""
    source_file := filename }

/-- Model of `DatabaseEngine.save_transactions`: the per-candidate loop, returning
the updated store and the count of rows actually inserted.  The
`INSERT OR IGNORE` against `UNIQUE(transaction_id, source_file)` is the
membership test on the evolving table. -/
def save_transactions (env : Env) (filename : String) (default_method : PaymentMethod) :
    List Candidate → DBState → DBState × Nat
  | [], s => (s, 0)
  | t :: rest, s =>
    if strTruthy t.merchant && amtTruthy t.amount then
      match clean_amount env (t.amount.getD (.str "")) with
      | none => save_transactions env filename default_method rest s
      | some amt =>
        if s.transactions.any (fun r =>
            r.transaction_id == resolve_tx_id env t amt && r.source_file == filename) then
          save_transactions env filename default_method rest s
        else
          let res := save_transactions env filename default_method rest
            { s with
              transactions := s.transactions ++ [insertedRow env filename default_method t amt s]
              nextId := s.nextId + 1 }
          (res.1, res.2 + 1)
    else
      save_transactions env filename default_method rest s

/-! ## categorizer.py -/

/-- Semantics of `INSERT OR REPLACE INTO category_map`: the conflicting row is deleted
and the fresh row appended (SQLite rowid order, which is the later
`SELECT` order). -/
def upsertRule (kw cat : String) (m : List (String × String)) : List (String × String) :=
  m.filter (fun p => p.1 != kw) ++ [(kw, cat)]

/-- Stable insertion for the length-descending sort: an element is placed
before the first rule whose keyword is not longer, so earlier rules keep
precedence among equal lengths (the Python sort is stable). -/
def insertRuleSorted (p : String × String) :
    List (String × String) → List (String × String)
  | [] => [p]
  | q :: t =>
    if q.1.length ≤ p.1.length then p :: q :: t else q :: insertRuleSorted p t

/-- categorizer.py line 30: `rules.sort(key=lambda x: len(x[0]), reverse=True)`. -/
def sortRulesDesc : List (String × String) → List (String × String)
  | [] => []
  | x :: xs => insertRuleSorted x (sortRulesDesc xs)

/-- categorizer.py lines 55-58: first rule whose keyword is a substring of
the lowercased merchant. -/
def firstMatch (merchant_lower : String) (rules : List (String × String)) :
    Option (String × String) :=
  rules.find? (fun r => strIn r.1 merchant_lower)

/-- categorizer.py lines 33-43: the sweep scope.  `merchant LIKE ?` with the
pattern `%kw%` is SQLite ASCII-case-insensitive containment test
(keywords are assumed free of the LIKE metacharacters `%` and `_`). -/
def scopeRows (target_keyword : Option String) (s : DBState) : List Txn :=
  match target_keyword with
  | some kw => s.transactions.filter (fun t => strIn (pyLower kw) (pyLower t.merchant))
  | none => s.transactions.filter (fun t => t.category == "Uncategorized")

/-- categorizer.py lines 50-58: the `(category, id)` update pairs. -/
def sweepUpdates (rules : List (String × String)) (rows : List Txn) :
    List (String × Nat) :=
  rows.filterMap (fun t =>
    if t.merchant == "" then none
    else (firstMatch (pyLower t.merchant) rules).map (fun r => (r.2, t.id)))

/-- One `UPDATE transactions SET category=? WHERE id=?`. -/
def applyUpdate (txns : List Txn) (u : String × Nat) : List Txn :=
  txns.map (fun t => if t.id == u.2 then { t with category := u.1 } else t)

/-- categorizer.py line 61: `executemany` over the update pairs. -/
def applyUpdates (txns : List Txn) (updates : List (String × Nat)) : List Txn :=
  updates.foldl applyUpdate txns

/-- Model of `Categorizer.run_updates`. -/
def run_updates (target_keyword : Option String) (s : DBState) : DBState :=
  let rules := sortRulesDesc s.category_map
  let rows := scopeRows target_keyword s
  let updates := sweepUpdates rules rows
  { s with transactions := applyUpdates s.transactions updates }

/-- Model of `Categorizer.add_rule`: store the lowercased keyword (replacing any
prior rule for it), then re-sweep scoped to the raw keyword. -/
def add_rule (keyword category : String) (s : DBState) : DBState :=
  run_updates (some keyword)
    { s with category_map := upsertRule (pyLower keyword) category s.category_map }

/-- Model of `FinanceTracker.teach`. -/
def teach (keyword category : String) (s : DBState) : DBState :=
  add_rule keyword category s

/-! ## llm.py -/

/-- llm.py lines 52-54: `.strip().replace(DOUBLEQUOTE, "").replace(QUOTE, "")`
on the raw model reply. -/
def normalizeReply (raw : String) : String :=
  stripChar (Char.ofNat 39) (stripChar (Char.ofNat 34) (pyTrim raw))

/-- Model of `LLMExtractor.identify_instrument`: normalize the oracle raw reply
(`none` models a raised exception) and scan the four valid labels in order
for a case-insensitive substring hit; otherwise "Unknown". -/
def identify_instrument (env : Env) (text_chunk : String) : String :=
  match env.oracle_instrument text_chunk with
  | none => "Unknown"
  | some raw =>
    let result := normalizeReply raw
    match ["Credit Card", "UPI", "Bank Transfer", "Debit Card"].find?
        (fun v => strIn (pyLower v) (pyLower result)) with
    | some v => v
    | none => "Unknown"

/-- llm.py line 148: `re.match(FOURDIGIT-TWODIGIT-TWODIGIT, date)` — an
anchored-at-start (prefix) match, not a full match. -/
def dateShapeOk (s : String) : Bool :=
  match s.data with
  | a :: b :: c :: d :: s1 :: e :: f :: s2 :: g :: h :: _ =>
    a.isDigit && b.isDigit && c.isDigit && d.isDigit && s1 == '-' &&
    e.isDigit && f.isDigit && s2 == '-' && g.isDigit && h.isDigit
  | _ => false

/-- llm.py lines 137-151: the defensive post-filter on decoded candidates. -/
def candidateValid (t : Candidate) : Bool :=
  !(strIn "EXAMPLE_MERCHANT" (pyUpper (t.merchant.getD ""))) &&
  amtTruthy t.amount &&
  dateShapeOk (t.date.getD "")

/-- Model of `LLMExtractor.extract_chunk`: the oracle decoded candidate list (after
the dict-vs-list JSON shape normalization, which `Env.oracle_chunk` already
performs; `none` models an exception or undecodable JSON, returning `[]`),
run through the post-filter. -/
def extract_chunk (env : Env) (text_chunk : String) (ft : FileType) : List Candidate :=
  match env.oracle_chunk text_chunk ft with
  | none => []
  | some raw => raw.filter candidateValid

/-! ## tracker.py -/

/-- Model of `FinanceTracker.get_file_hash`: stream the bytes in 8192-byte blocks
(`chunksOf 8191` groups a head byte with the next 8191) through an
incrementally-updated MD5; the incremental digest is the digest of the
concatenated blocks. -/
def get_file_hash (env : Env) (bytes : List Nat) : String :=
  env.md5_bytes (chunksOf 8191 bytes).flatten

/-- Extension extraction `filepath.lower().split(DOT)[-1]`.  Paths are modelled as bare
filenames (`os.path.basename` is the identity on them). -/
def fileExt (name : String) : String :=
  ⟨(((pyLower name).data.splitOn (Char.ofNat 46)).getLastD [])⟩

/-- tracker.py lines 61-69: the filename tier of the inference. -/
def filename_tier (fname : String) : PaymentMethod :=
  if strIn "credit" fname && strIn "card" fname then .CREDIT_CARD
  else if strIn "debit" fname && strIn "card" fname then .DEBIT_CARD
  else if strIn "upi" fname then .UPI
  else if strIn "bank" fname then .BANK_TRANSFER
  else .UNKNOWN

/-- tracker.py lines 48-51: map the oracle classification string onto the
enum by case-insensitive equality with the display values, in declaration
order. -/
def tier1Lookup (ai_guess : String) : Option PaymentMethod :=
  pmMembers.find? (fun pm => pyLower pm.value == pyLower ai_guess)

/-- Model of `FinanceTracker.infer_payment_method`. -/
def infer_payment_method (env : Env) (filepath : String) (first_page_text : String) :
    PaymentMethod :=
  let fname := pyLower filepath
  let text_lower := pyLower first_page_text
  let step23 : PaymentMethod :=
    if strIn "credit card" text_lower then .CREDIT_CARD
    else if strIn "upi" text_lower then .UPI
    else if strIn "savings" text_lower || strIn "account statement" text_lower then
      .BANK_TRANSFER
    else filename_tier fname
  if first_page_text ≠ "" then
    match tier1Lookup (identify_instrument env first_page_text) with
    | some pm => pm
    | none => step23
  else step23

/-- tracker.py lines 118-121: `[str(field).strip() for field in row if field]`. -/
def rowValues (row : List (Option String)) : List String :=
  row.filterMap (fun cell =>
    match cell with
    | none => none
    | some f => if f = "" then none else some (pyTrim f))

/-- tracker.py line 122: `" ".join(row_values).lower()`. -/
def rowStr (vals : List String) : String :=
  pyLower (pyJoin " " vals)

/-- tracker.py lines 124-134: drop header rows, short rows and page-footer
rows before queueing. -/
def keepRow (row : List (Option String)) : Bool :=
  let vals := rowValues row
  let rs := rowStr vals
  !(strIn "date" rs && strIn "amount" rs) &&
  decide (vals.length ≥ 2) &&
  !(strIn "page" rs && strIn "of" rs)

/-- Python `str(row)` on a list of optional strings (cell quoting is not
escaped; the result is only ever fed to the oracle). -/
def pyReprRow (row : List (Option String)) : String :=
  let sq := String.singleton (Char.ofNat 39)
  "[" ++ pyJoin ", " (row.map (fun cell =>
    match cell with
    | none => "None"
    | some s => sq ++ s ++ sq)) ++ "]"

/-- tracker.py lines 136-150: accumulate kept row-reprs and flush a
newline-joined batch whenever it reaches `ROW_BATCH_SIZE`, plus a final
flush of the remainder. -/
def batchLoop (batch_size : Nat) : List String → List String → List String
  | [], batch => if batch.isEmpty then [] else [pyJoin "\n" batch]
  | r :: rest, batch =>
    let batch2 := batch ++ [r]
    if batch2.length ≥ batch_size then
      pyJoin "\n" batch2 :: batchLoop batch_size rest []
    else
      batchLoop batch_size rest batch2

/-- The fragments queued for one extracted table. -/
def tableTasks (env : Env) (table : List (List (Option String))) :
    List (String × FileType) :=
  (batchLoop env.row_batch_size ((table.filter keepRow).map pyReprRow) []).map
    (fun b => (b, FileType.CSV))

/-- tracker.py lines 109-158: tasks contributed by one PDF page — table
batches when `extract_tables` found any table, else the raw page text when
it is truthy. -/
def pageTasks (env : Env) (p : Page) : List (String × FileType) :=
  if !p.tables.isEmpty then
    p.tables.flatMap (tableTasks env)
  else
    match p.text with
    | some t => if t ≠ "" then [(t, FileType.PDF)] else []
    | none => []

/-- The fragment list of `process_file` (tracker.py lines 100-171): `none`
models the `pd.read_csv` exception early return.  CSV rows are grouped in
`CHUNK_SIZE_LINES`-sized chunks (`chunksOf (n-1)` groups a head row with
the next `n-1`; the configured size is assumed positive, as the Python
`range(0, len, 0)` would raise); each chunk `to_string` rendering is
modelled as the newline join of its row renderings. -/
def segmentation (env : Env) (parsed : ParsedDoc) : Option (List (String × FileType)) :=
  match parsed with
  | .pdf pages => some (pages.flatMap (pageTasks env))
  | .csv none => none
  | .csv (some rows) =>
      some (((chunksOf (env.chunk_size_lines - 1) rows).map (pyJoin "\n")).map
        (fun c => (c, FileType.CSV)))
  | .other => some []

/-- The default instrument `process_file` derives before extraction: from
the first PDF page text, from the bare filename for a CSV, else UNKNOWN. -/
def detectedMethod (env : Env) (parsed : ParsedDoc) (name : String) : PaymentMethod :=
  match parsed with
  | .pdf [] => .UNKNOWN
  | .pdf (p :: _) => infer_payment_method env name (p.text.getD "")
  | .csv _ => infer_payment_method env name ""
  | .other => .UNKNOWN

/-- Model of `FinanceTracker.process_file` on an existing file.  The thread-pool
fan-out is modelled as extraction in task order: the claims proved below do
not depend on the completion order in which results are appended. -/
def process_file (env : Env) (bytes : List Nat) (name : String) (s : DBState) : DBState :=
  let f_hash := get_file_hash env bytes
  if is_file_processed s f_hash then s
  else
    let parsed := env.parseDoc bytes (fileExt name)
    match segmentation env parsed with
    | none => s
    | some tasks =>
      if tasks.isEmpty then s
      else
        let all_transactions := tasks.flatMap (fun t => extract_chunk env t.1 t.2)
        let saved := save_transactions env name (detectedMethod env parsed name)
          all_transactions s
        let s2 := log_file_processed saved.1 f_hash name
        run_updates none s2

/-! ## Helper lemmas about the rule sort and the batched category update -/

/-- The comparison underlying the length-descending rule sort. -/
def ruleGE (a b : String × String) : Prop := b.1.length ≤ a.1.length

theorem mem_insertRuleSorted {p x : String × String} :
    ∀ {l : List (String × String)}, x ∈ insertRuleSorted p l ↔ x = p ∨ x ∈ l := by
  intro l
  induction l with
  | nil => simp [insertRuleSorted]
  | cons q t ih =>
    by_cases hq : q.1.length ≤ p.1.length
    · simp [insertRuleSorted, hq, List.mem_cons]
    · simp only [insertRuleSorted, hq, if_false, List.mem_cons, ih]
      tauto

theorem mem_sortRulesDesc {x : String × String} :
    ∀ {l : List (String × String)}, x ∈ sortRulesDesc l ↔ x ∈ l := by
  intro l
  induction l with
  | nil => simp [sortRulesDesc]
  | cons q t ih => simp [sortRulesDesc, mem_insertRuleSorted, ih, List.mem_cons]

theorem pairwise_insertRuleSorted {p : String × String} {l : List (String × String)}
    (h : l.Pairwise ruleGE) : (insertRuleSorted p l).Pairwise ruleGE := by
  induction l with
  | nil => simp [insertRuleSorted, ruleGE]
  | cons q t ih =>
    rcases List.pairwise_cons.1 h with ⟨hq, ht⟩
    by_cases hlen : q.1.length ≤ p.1.length
    · simp only [insertRuleSorted, hlen, if_true]
      refine List.pairwise_cons.2 ⟨?_, h⟩
      intro y hy
      rcases List.mem_cons.1 hy with rfl | hy
      · exact hlen
      · exact le_trans (hq y hy) hlen
    · simp only [insertRuleSorted, hlen, if_false]
      refine List.pairwise_cons.2 ⟨?_, ih ht⟩
      intro y hy
      rcases mem_insertRuleSorted.1 hy with rfl | hy
      · exact le_of_not_le hlen
      · exact hq y hy

theorem pairwise_sortRulesDesc (l : List (String × String)) :
    (sortRulesDesc l).Pairwise ruleGE := by
  induction l with
  | nil => simp [sortRulesDesc]
  | cons q t ih => exact pairwise_insertRuleSorted ih

/-- In a pairwise-ordered list, `find?` returns an element no other
satisfying element beats. -/
theorem find?_pairwise_max {R : α → α → Prop} {p : α → Bool} {r : α} :
    ∀ {l : List α}, l.Pairwise R → l.find? p = some r →
      ∀ x ∈ l, p x = true → R r x ∨ x = r := by
  intro l
  induction l with
  | nil => intro _ h; simp [List.find?] at h
  | cons a t ih =>
    intro hp hf x hx hpx
    rcases List.pairwise_cons.1 hp with ⟨ha, ht⟩
    by_cases hpa : p a = true
    · have : r = a := by
        have := List.find?_cons_of_pos (p := p) t hpa
        rw [this] at hf
        exact (Option.some_inj.1 hf).symm
      subst this
      rcases List.mem_cons.1 hx with rfl | hx
      · exact Or.inr rfl
      · exact Or.inl (ha x hx)
    · have hpa2 : p a = false := by simpa using hpa
      rw [List.find?_cons_of_neg _ (by simp [hpa2])] at hf
      rcases List.mem_cons.1 hx with rfl | hx
      · rw [hpx] at hpa2; cases hpa2
      · exact ih ht hf x hx hpx

theorem option_map_some {α β : Type} (f : α → β) (a : α) :
    Option.map f (some a) = some (f a) := rfl

/-- Structure eta for the category rewrite. -/
theorem setCategory_self (t : Txn) : ({ t with category := t.category }) = t := rfl

theorem applyUpdate_ite_pos {t : Txn} {u : String × Nat} (h : t.id = u.2) :
    (if t.id == u.2 then { t with category := u.1 } else t) = { t with category := u.1 } := by
  simp [h]

theorem applyUpdate_ite_neg {t : Txn} {u : String × Nat} (h : ¬ t.id = u.2) :
    (if t.id == u.2 then { t with category := u.1 } else t) = t := by
  simp [h]

theorem applyUpdates_nil (txns : List Txn) : applyUpdates txns [] = txns := rfl

theorem applyUpdates_cons (txns : List Txn) (u : String × Nat) (us : List (String × Nat)) :
    applyUpdates txns (u :: us) = applyUpdates (applyUpdate txns u) us := rfl

theorem applyUpdate_getElem (txns : List Txn) (u : String × Nat) (i : Nat) :
    (applyUpdate txns u)[i]? =
      txns[i]?.map (fun t => if t.id == u.2 then { t with category := u.1 } else t) := by
  simp [applyUpdate]

/-- A row whose id no update targets is returned verbatim. -/
theorem applyUpdates_frame :
    ∀ (us : List (String × Nat)) (txns : List Txn) (i : Nat) (t : Txn),
      txns[i]? = some t → (∀ c, (c, t.id) ∉ us) →
      (applyUpdates txns us)[i]? = some t := by
  intro us
  induction us with
  | nil => intro txns i t ht _; simpa [applyUpdates_nil] using ht
  | cons u rest ih =>
    intro txns i t ht hno
    rw [applyUpdates_cons]
    refine ih _ i t ?_ ?_
    · rw [applyUpdate_getElem, ht]
      have hid : ¬ t.id = u.2 := by
        intro hcon
        exact hno u.1 (by rw [hcon]; exact List.mem_cons_self (u.1, u.2) rest)
      rw [option_map_some, applyUpdate_ite_neg hid]
    · intro c hc
      exact hno c (List.mem_cons_of_mem u hc)

/-- A row whose every targeting update only rewrites its current category is
returned verbatim. -/
theorem applyUpdates_preserve :
    ∀ (us : List (String × Nat)) (txns : List Txn) (i : Nat) (t : Txn),
      txns[i]? = some t → (∀ c, (c, t.id) ∈ us → c = t.category) →
      (applyUpdates txns us)[i]? = some t := by
  intro us
  induction us with
  | nil => intro txns i t ht _; simpa [applyUpdates_nil] using ht
  | cons u rest ih =>
    intro txns i t ht hall
    rw [applyUpdates_cons]
    refine ih _ i t ?_ ?_
    · rw [applyUpdate_getElem, ht, option_map_some]
      by_cases hid : t.id = u.2
      · have hc : u.1 = t.category :=
          hall u.1 (by rw [hid]; exact List.mem_cons_self (u.1, u.2) rest)
        rw [applyUpdate_ite_pos hid, hc, setCategory_self]
      · rw [applyUpdate_ite_neg hid]
    · intro c hc
      exact hall c (List.mem_cons_of_mem u hc)

/-- A row targeted by an update pair, and only by pairs carrying that same
category, ends with exactly that category. -/
theorem applyUpdates_target :
    ∀ (us : List (String × Nat)) (txns : List Txn) (i : Nat) (t : Txn) (c : String),
      txns[i]? = some t → (c, t.id) ∈ us → (∀ c2, (c2, t.id) ∈ us → c2 = c) →
      (applyUpdates txns us)[i]? = some { t with category := c } := by
  intro us
  induction us with
  | nil => intro _ _ _ _ _ hmem; cases hmem
  | cons u rest ih =>
    intro txns i t c ht hmem huniq
    rw [applyUpdates_cons]
    by_cases hid : t.id = u.2
    · have hc : u.1 = c :=
        huniq u.1 (by rw [hid]; exact List.mem_cons_self (u.1, u.2) rest)
      have ht2 : (applyUpdate txns u)[i]? = some { t with category := c } := by
        rw [applyUpdate_getElem, ht, option_map_some, applyUpdate_ite_pos hid, hc]
      refine applyUpdates_preserve rest _ i _ ht2 ?_
      intro c2 hc2
      exact huniq c2 (List.mem_cons_of_mem u hc2)
    · have ht2 : (applyUpdate txns u)[i]? = some t := by
        rw [applyUpdate_getElem, ht, option_map_some, applyUpdate_ite_neg hid]
      have hmem2 : (c, t.id) ∈ rest := by
        rcases List.mem_cons.1 hmem with heq | h
        · exact absurd (congrArg Prod.snd heq) hid
        · exact h
      refine ih _ i t c ht2 hmem2 ?_
      intro c2 hc2
      exact huniq c2 (List.mem_cons_of_mem u hc2)

/-- Erase the one mutable field, for frame statements. -/
def sansCategory (t : Txn) : Txn := { t with category := "" }

theorem sansCategory_applyUpdate (txns : List Txn) (u : String × Nat) :
    (applyUpdate txns u).map sansCategory = txns.map sansCategory := by
  simp only [applyUpdate, List.map_map]
  apply List.map_congr_left
  intro t _
  by_cases h : t.id = u.2 <;> simp [sansCategory, h]

theorem sansCategory_applyUpdates :
    ∀ (us : List (String × Nat)) (txns : List Txn),
      (applyUpdates txns us).map sansCategory = txns.map sansCategory := by
  intro us
  induction us with
  | nil => intro txns; rfl
  | cons u rest ih =>
    intro txns
    rw [applyUpdates_cons, ih, sansCategory_applyUpdate]

/-- Membership in the update pairs of a sweep. -/
theorem sweepUpdates_mem {rules : List (String × String)} {rows : List Txn}
    {c : String} {id : Nat} (h : (c, id) ∈ sweepUpdates rules rows) :
    ∃ t ∈ rows, t.id = id ∧ t.merchant ≠ "" ∧
      ∃ k, firstMatch (pyLower t.merchant) rules = some (k, c) := by
  rcases List.mem_filterMap.1 h with ⟨t, hrow, ht⟩
  by_cases hm : t.merchant = ""
  · simp [hm] at ht
  · have hm2 : (t.merchant == "") = false := by simpa using hm
    rw [if_neg (by simp [hm])] at ht
    rcases Option.map_eq_some'.1 ht with ⟨r, hr, hpair⟩
    have h1 : r.2 = c := congrArg Prod.fst hpair
    refine ⟨t, hrow, congrArg Prod.snd hpair, hm, r.1, ?_⟩
    rw [hr]
    have hrc : r = (r.1, c) := by rw [← h1]
    rw [← hrc]

/-- A scoped row with nonempty merchant and a rule hit contributes its pair. -/
theorem sweepUpdates_source {rules : List (String × String)} {rows : List Txn}
    {t : Txn} {k c : String} (hrow : t ∈ rows) (hm : t.merchant ≠ "")
    (hf : firstMatch (pyLower t.merchant) rules = some (k, c)) :
    (c, t.id) ∈ sweepUpdates rules rows := by
  apply List.mem_filterMap.2
  exact ⟨t, hrow, by rw [if_neg (by simp [hm]), hf]; rfl⟩

/-- Distinct ids pin down rows: two members with the same id coincide. -/
theorem nodup_id_inj :
    ∀ {l : List Txn}, (l.map Txn.id).Nodup →
      ∀ {a b : Txn}, a ∈ l → b ∈ l → a.id = b.id → a = b := by
  intro l
  induction l with
  | nil => intro _ a b ha; cases ha
  | cons x t ih =>
    intro hnd a b ha hb hab
    rw [List.map_cons, List.nodup_cons] at hnd
    rcases hnd with ⟨hx, ht⟩
    rcases List.mem_cons.1 ha with ha1 | ha2
    · rcases List.mem_cons.1 hb with hb1 | hb2
      · rw [ha1, hb1]
      · subst ha1
        exact absurd (by rw [hab]; exact List.mem_map_of_mem Txn.id hb2) hx
    · rcases List.mem_cons.1 hb with hb1 | hb2
      · subst hb1
        exact absurd (by rw [← hab]; exact List.mem_map_of_mem Txn.id ha2) hx
      · exact ih ht ha2 hb2 hab

/-- Rows selected by a sweep are rows of the table. -/
theorem mem_of_scopeRows {target : Option String} {s : DBState} {t : Txn}
    (h : t ∈ scopeRows target s) : t ∈ s.transactions := by
  cases target with
  | none => exact (List.mem_filter.1 h).1
  | some kw => exact (List.mem_filter.1 h).1

/-! ## Claim theorems -/

/-- Example transaction for the categorization claims. -/
def exTxnAws : Txn :=
  { id := 1, transaction_id := "T1", date := some "2024-05-01",
    merchant := "AMAZON AWS PAYMENT", amount := some 5, txn_type := "DEBIT",
    payment_method := "UPI", category := "Uncategorized", notes := "",
    source_file := "st.pdf" }

/-- The two insertion orders of the C3 example rule set. -/
def exStateC3a : DBState :=
  { transactions := [exTxnAws],
    category_map := [("amazon", "Shopping"), ("amazon aws", "Cloud")] }

def exStateC3b : DBState :=
  { transactions := [exTxnAws],
    category_map := [("amazon aws", "Cloud"), ("amazon", "Shopping")] }

/-- C3 (longest-match categorization): in every sweep the winning rule for a
merchant is the first hit in the length-descending sort, so it is a
substring of the lowercased merchant, is one of the stored rules, and no
other matching rule has a strictly longer keyword; concretely, with rules
amazon to Shopping and amazon aws to Cloud (in either storage order) a
transaction with merchant AMAZON AWS PAYMENT is categorized Cloud, not
Shopping. -/
theorem longest_match_categorization :
    (∀ (rules : List (String × String)) (ml : String) (r : String × String),
      firstMatch ml (sortRulesDesc rules) = some r →
        strIn r.1 ml = true ∧ r ∈ rules ∧
        ∀ r2 ∈ rules, strIn r2.1 ml = true → r2.1.length ≤ r.1.length) ∧
    (run_updates none exStateC3a).transactions = [{ exTxnAws with category := "Cloud" }] ∧
    (run_updates none exStateC3b).transactions = [{ exTxnAws with category := "Cloud" }] := by
  refine ⟨?_, by decide, by decide⟩
  intro rules ml r hf
  have hf2 : (sortRulesDesc rules).find? (fun rr => strIn rr.1 ml) = some r := hf
  have hp := pairwise_sortRulesDesc rules
  have hmem : r ∈ sortRulesDesc rules := List.mem_of_find?_eq_some hf2
  refine ⟨by simpa using List.find?_some hf2, mem_sortRulesDesc.1 hmem, ?_⟩
  intro r2 h2 hp2
  rcases find?_pairwise_max hp hf2 r2 (mem_sortRulesDesc.2 h2) (by simpa using hp2) with hR | heq
  · exact hR
  · exact le_of_eq (by rw [heq])

/-- Witness for the hypothesis-bearing part of the C3 theorem. -/
theorem longest_match_categorization_witness :
    firstMatch "amazon aws payment"
        (sortRulesDesc [("amazon", "Shopping"), ("amazon aws", "Cloud")]) =
      some ("amazon aws", "Cloud") ∧
    strIn "amazon aws" "amazon aws payment" = true ∧
    ("amazon", "Shopping").1.length ≤ ("amazon aws", "Cloud").1.length := by
  refine ⟨by decide, ?_, ?_⟩
  · exact (longest_match_categorization.1 [("amazon", "Shopping"), ("amazon aws", "Cloud")]
      "amazon aws payment" ("amazon aws", "Cloud") (by decide)).1
  · exact (longest_match_categorization.1 [("amazon", "Shopping"), ("amazon aws", "Cloud")]
      "amazon aws payment" ("amazon aws", "Cloud") (by decide)).2.2
      ("amazon", "Shopping") (by decide) (by decide)

/-- C8 (sweep frame property): a sweep never touches the processed-files
ledger, the rule table or the id counter; on the transactions it can change
only the category field; and — ids being distinct — a transaction that is
out of scope, has an empty merchant, or matches no rule is returned
verbatim (in particular its category is not reset). -/
theorem sweep_frame_property :
    ∀ (target : Option String) (s : DBState),
      (run_updates target s).processed_files = s.processed_files ∧
      (run_updates target s).category_map = s.category_map ∧
      (run_updates target s).nextId = s.nextId ∧
      (run_updates target s).transactions.map sansCategory =
        s.transactions.map sansCategory ∧
      ((s.transactions.map Txn.id).Nodup →
        ∀ i, (hi : i < s.transactions.length) →
          (s.transactions[i] ∉ scopeRows target s ∨
           s.transactions[i].merchant = "" ∨
           firstMatch (pyLower s.transactions[i].merchant)
             (sortRulesDesc s.category_map) = none) →
          (run_updates target s).transactions[i]? = some s.transactions[i]) := by
  intro target s
  refine ⟨rfl, rfl, rfl, sansCategory_applyUpdates _ _, ?_⟩
  intro hnd i hi hdisj
  have ht : s.transactions[i]? = some s.transactions[i] := List.getElem?_eq_getElem hi
  have hno : ∀ c, (c, s.transactions[i].id) ∉
      sweepUpdates (sortRulesDesc s.category_map) (scopeRows target s) := by
    intro c hc
    rcases sweepUpdates_mem hc with ⟨t2, hrow, hid, hm2, k, hf⟩
    have ht2mem := mem_of_scopeRows hrow
    have heq : t2 = s.transactions[i] :=
      nodup_id_inj hnd ht2mem (List.getElem_mem hi) hid
    rw [heq] at hrow hm2 hf
    rcases hdisj with h1 | h2 | h3
    · exact h1 hrow
    · exact hm2 h2
    · rw [h3] at hf; cases hf
  exact applyUpdates_frame _ _ i _ ht hno

/-- A transaction with an already-assigned category and a merchant no rule
matches, for the C8 witness. -/
def exTxnC8 : Txn :=
  { id := 7, transaction_id := "T7", date := none, merchant := "LOCAL BAKERY",
    amount := some 3, txn_type := "DEBIT", payment_method := "Cash",
    category := "Food", notes := "", source_file := "st.pdf" }

def exStateC8 : DBState :=
  { transactions := [exTxnC8], category_map := [("amazon", "Shopping")] }

/-- Witness for the hypothesis-bearing part of the C8 theorem. -/
theorem sweep_frame_property_witness :
    (run_updates none exStateC8).transactions[0]? = some exTxnC8 := by
  exact (sweep_frame_property none exStateC8).2.2.2.2 (by decide) 0 (by decide)
    (Or.inr (Or.inr (by decide)))

/-- Pre-existing longer rule plus transaction already categorized Food, for
the C10 claim. -/
def exTxnC10 : Txn :=
  { id := 1, transaction_id := "T1", date := some "2024-05-01",
    merchant := "AMAZON AWS PAYMENT", amount := some 5, txn_type := "DEBIT",
    payment_method := "UPI", category := "Food", notes := "",
    source_file := "st.pdf" }

def exStateC10 : DBState :=
  { transactions := [exTxnC10], category_map := [("amazon aws", "Cloud")] }

/-- C10 (teach re-sweeps regardless of category): the scoped sweep run by
teach rewrites every id-distinct transaction whose merchant contains the
taught keyword — whatever its current category — to the category of the
first rule in the length-descending sort that matches; concretely, teaching
amazon to Shopping over a pre-existing amazon aws to Cloud rule rewrites a
transaction with merchant AMAZON AWS PAYMENT and category Food to Cloud,
not to the just-taught Shopping. -/
theorem teach_scoped_sweep_overwrites :
    (∀ (s : DBState) (kw cat : String),
      (s.transactions.map Txn.id).Nodup →
      ∀ i, (hi : i < s.transactions.length) →
        strIn (pyLower kw) (pyLower s.transactions[i].merchant) = true →
        s.transactions[i].merchant ≠ "" →
        ∀ r, firstMatch (pyLower s.transactions[i].merchant)
            (sortRulesDesc (upsertRule (pyLower kw) cat s.category_map)) = some r →
        (teach kw cat s).transactions[i]? =
          some { s.transactions[i] with category := r.2 }) ∧
    (teach "amazon" "Shopping" exStateC10).transactions =
      [{ exTxnC10 with category := "Cloud" }] ∧
    exTxnC10.category = "Food" ∧ ("Cloud" : String) ≠ "Shopping" := by
  refine ⟨?_, by decide, by decide, by decide⟩
  intro s kw cat hnd i hi hscope hm r hf
  have ht : s.transactions[i]? = some s.transactions[i] := List.getElem?_eq_getElem hi
  have hrow : s.transactions[i] ∈
      scopeRows (some kw) { s with category_map := upsertRule (pyLower kw) cat s.category_map } := by
    exact List.mem_filter.2 ⟨List.getElem_mem hi, hscope⟩
  have hpair : (r.2, s.transactions[i].id) ∈
      sweepUpdates (sortRulesDesc (upsertRule (pyLower kw) cat s.category_map))
        (scopeRows (some kw) { s with category_map := upsertRule (pyLower kw) cat s.category_map }) :=
    sweepUpdates_source hrow hm hf
  have huniq : ∀ c2, (c2, s.transactions[i].id) ∈
      sweepUpdates (sortRulesDesc (upsertRule (pyLower kw) cat s.category_map))
        (scopeRows (some kw) { s with category_map := upsertRule (pyLower kw) cat s.category_map }) →
      c2 = r.2 := by
    intro c2 hc2
    rcases sweepUpdates_mem hc2 with ⟨t2, hrow2, hid2, hm2, k2, hf2⟩
    have ht2mem := mem_of_scopeRows hrow2
    have heq : t2 = s.transactions[i] :=
      nodup_id_inj hnd ht2mem (List.getElem_mem hi) hid2
    rw [heq, hf] at hf2
    have := Option.some_inj.1 hf2
    exact (congrArg Prod.snd this).symm
  exact applyUpdates_target _ _ i _ r.2 ht hpair huniq

/-- Witness for the hypothesis-bearing part of the C10 theorem. -/
theorem teach_scoped_sweep_overwrites_witness :
    (teach "amazon" "Shopping" exStateC10).transactions[0]? =
      some { exTxnC10 with category := "Cloud" } := by
  exact (teach_scoped_sweep_overwrites.1 exStateC10 "amazon" "Shopping" (by decide) 0
    (by decide) (by decide) (by decide) ("amazon aws", "Cloud") (by decide))

/-- A well-formed candidate the sample oracle returns. -/
def sampleCand : Candidate :=
  { transaction_id := some "T100", date := some "2024-01-02",
    merchant := some "COFFEE HOUSE", amount := some (.str "250"),
    txn_type := some "DEBIT", payment_method := some "UPI", notes := some "" }

/-- A concrete environment for witnesses and counterexamples: the theorems
hold for every environment, so the hash, rendering and oracle functions here
are arbitrary computable stand-ins. -/
def sampleEnv : Env :=
  { md5_bytes := fun _ => "9e107d9d372bb682"
    md5_str := fun _ => "8f14e45fceea167a"
    float_repr := fun _ => "0.0"
    oracle_chunk := fun _ _ => some [sampleCand]
    oracle_instrument := fun _ => some "Bank Transfer"
    parseDoc := fun _ _ => ParsedDoc.other }

/-- Candidate whose payment_method is the exact string Unknown. -/
def candUnknownPm : Candidate :=
  { merchant := some "SHOP", amount := some (.str "100"),
    payment_method := some "Unknown" }

/-- C5 counterexample: a candidate carrying the exact string Unknown — which
case-insensitively matches the display string of the UNKNOWN enum value —
is nevertheless persisted with the caller default (here Credit Card), not
with Unknown, because save_transactions explicitly excludes the exact
string Unknown from enum matching. -/
theorem payment_method_resolution_counterexample :
    candUnknownPm.payment_method = some "Unknown" ∧
    (pyLower "Unknown" == pyLower PaymentMethod.UNKNOWN.value) = true ∧
    (save_transactions sampleEnv "f.pdf" PaymentMethod.CREDIT_CARD
        [candUnknownPm] {}).1.transactions.map Txn.payment_method = ["Credit Card"] ∧
    ("Credit Card" : String) ≠ "Unknown" := by
  refine ⟨rfl, by decide, by decide, by decide⟩

/-- C5 amended: the candidate payment_method is adopted exactly when it is
truthy, not the exact string Unknown, and case-insensitively equal to some
enum display string (so the lowercase variants of unknown do resolve to the
UNKNOWN enum value); in every other case — absent, empty, exactly Unknown,
or unrecognized — the caller default is persisted.  A successful insert
writes the resolved display string into the row. -/
theorem payment_method_resolution_amended :
    ∀ (d : PaymentMethod),
      resolve_payment_method none d = d ∧
      resolve_payment_method (some "") d = d ∧
      resolve_payment_method (some "Unknown") d = d ∧
      (∀ r pm, r ≠ "" → r ≠ "Unknown" →
        pmMembers.find? (fun pm2 => pyLower pm2.value == pyLower r) = some pm →
        resolve_payment_method (some r) d = pm) ∧
      (∀ r, r ≠ "" → r ≠ "Unknown" →
        pmMembers.find? (fun pm2 => pyLower pm2.value == pyLower r) = none →
        resolve_payment_method (some r) d = d) ∧
      (∀ env f t s amt,
        strTruthy t.merchant = true → amtTruthy t.amount = true →
        clean_amount env (t.amount.getD (.str "")) = some amt →
        s.transactions.any (fun row =>
          row.transaction_id == resolve_tx_id env t amt && row.source_file == f) = false →
        (save_transactions env f d [t] s).1.transactions.map Txn.payment_method =
          s.transactions.map Txn.payment_method ++
            [(resolve_payment_method t.payment_method d).value]) := by
  intro d
  refine ⟨rfl, rfl, rfl, ?_, ?_, ?_⟩
  · intro r pm h1 h2 hfind
    show (if r ≠ "" ∧ r ≠ "Unknown" then
        match pmMembers.find? (fun pm2 => pyLower pm2.value == pyLower r) with
        | some pm2 => pm2
        | none => d
      else d) = pm
    rw [if_pos ⟨h1, h2⟩, hfind]
  · intro r h1 h2 hfind
    show (if r ≠ "" ∧ r ≠ "Unknown" then
        match pmMembers.find? (fun pm2 => pyLower pm2.value == pyLower r) with
        | some pm2 => pm2
        | none => d
      else d) = d
    rw [if_pos ⟨h1, h2⟩, hfind]
  · intro env f t s amt h1 h2 hclean hnodup
    simp only [save_transactions, h1, h2, Bool.and_self, if_true, hclean, hnodup,
      Bool.false_eq_true, if_false, List.map_append, List.map_cons, List.map_nil,
      insertedRow]

/-- Witness for the hypothesis-bearing parts of the amended C5 theorem. -/
theorem payment_method_resolution_amended_witness :
    resolve_payment_method (some "upi") PaymentMethod.CREDIT_CARD = PaymentMethod.UPI ∧
    (save_transactions sampleEnv "g.csv" PaymentMethod.CREDIT_CARD
        [sampleCand] {}).1.transactions.map Txn.payment_method =
      ([] : List Txn).map Txn.payment_method ++
        [(resolve_payment_method sampleCand.payment_method PaymentMethod.CREDIT_CARD).value] := by
  constructor
  · exact (payment_method_resolution_amended PaymentMethod.CREDIT_CARD).2.2.2.1
      "upi" PaymentMethod.UPI (by decide) (by decide) (by decide)
  · exact (payment_method_resolution_amended PaymentMethod.CREDIT_CARD).2.2.2.2.2
      sampleEnv "g.csv" sampleCand {} (PyNum.fin (mkRat 250 1)) (by decide) (by decide)
      (by decide) (by decide)

/-- The five strings identify_instrument can return. -/
def instrumentLabels : List String :=
  ["Credit Card", "UPI", "Bank Transfer", "Debit Card", "Unknown"]

theorem identify_instrument_mem (env : Env) (t : String) :
    identify_instrument env t ∈ instrumentLabels := by
  unfold identify_instrument
  cases env.oracle_instrument t with
  | none => simp [instrumentLabels]
  | some raw =>
    cases hf : ["Credit Card", "UPI", "Bank Transfer", "Debit Card"].find?
        (fun v => strIn (pyLower v) (pyLower (normalizeReply raw))) with
    | none => dsimp only; rw [hf]; simp [instrumentLabels]
    | some v =>
      dsimp only
      rw [hf]
      have hv := List.mem_of_find?_eq_some hf
      simp only [List.mem_cons, List.not_mem_nil, or_false] at hv
      rcases hv with rfl | rfl | rfl | rfl <;> simp [instrumentLabels]

theorem tier1Lookup_total :
    ∀ g ∈ instrumentLabels, ∃ pm, tier1Lookup g = some pm := by
  intro g hg
  simp only [instrumentLabels, List.mem_cons, List.not_mem_nil, or_false] at hg
  rcases hg with rfl | rfl | rfl | rfl | rfl
  · exact ⟨.CREDIT_CARD, rfl⟩
  · exact ⟨.UPI, rfl⟩
  · exact ⟨.BANK_TRANSFER, rfl⟩
  · exact ⟨.DEBIT_CARD, rfl⟩
  · exact ⟨.UNKNOWN, rfl⟩

/-- Environment whose oracle replies with text matching no instrument
label. -/
def envGibberish : Env :=
  { sampleEnv with oracle_instrument := fun _ => some "no instrument here" }

/-- C4 counterexample: with a non-empty first page that plainly contains
the phrase credit card, an oracle reply matching no label does NOT fall
through to the content-keyword tier — identify_instrument normalizes the
reply to the string Unknown, which matches the UNKNOWN enum value, so
infer_payment_method returns UNKNOWN instead of the CREDIT_CARD the
claimed content tier would produce. -/
theorem instrument_tiers_counterexample :
    infer_payment_method envGibberish "statement.pdf" "credit card statement" =
      PaymentMethod.UNKNOWN ∧
    strIn "credit card" (pyLower "credit card statement") = true ∧
    ("credit card statement" : String) ≠ "" := by
  refine ⟨by decide, by decide, by decide⟩

/-- C4 amended: whenever the first-page text is non-empty the oracle tier
always yields the answer — identify_instrument maps every reply onto one of
the five labels (Unknown included) and each label matches a PaymentMethod
value, so the content-keyword and filename tiers are unreachable; with
empty text the content tier is vacuous and the result is exactly the
filename tier. -/
theorem instrument_tiers_amended :
    ∀ (env : Env) (filepath text : String),
      (text ≠ "" → ∃ pm, tier1Lookup (identify_instrument env text) = some pm ∧
        infer_payment_method env filepath text = pm) ∧
      infer_payment_method env filepath "" = filename_tier (pyLower filepath) := by
  intro env filepath text
  constructor
  · intro h
    obtain ⟨pm, hpm⟩ :=
      tier1Lookup_total (identify_instrument env text) (identify_instrument_mem env text)
    refine ⟨pm, hpm, ?_⟩
    simp only [infer_payment_method]
    rw [if_pos h, hpm]
  · rfl

/-- Witness for the hypothesis-bearing part of the amended C4 theorem. -/
theorem instrument_tiers_amended_witness :
    ("some header" : String) ≠ "" ∧
    ∃ pm, tier1Lookup (identify_instrument sampleEnv "some header") = some pm ∧
      infer_payment_method sampleEnv "up.pdf" "some header" = pm := by
  exact ⟨by decide, (instrument_tiers_amended sampleEnv "up.pdf" "some header").1 (by decide)⟩

/-- A candidate echoing the worked example merchant. -/
def candExample : Candidate :=
  { merchant := some "EXAMPLE_MERCHANT_ONLY", amount := some (.num 100),
    date := some "2025-12-31" }

/-- A candidate with an empty merchant. -/
def candNoMerchant : Candidate :=
  { merchant := none, amount := some (.str "10"), date := some "2024-01-01" }

/-- C7 (candidate filter correctness): any candidate whose merchant contains
the placeholder token, or whose amount is falsy, or whose date fails the
anchored digit-digit-digit-digit dash digit-digit dash digit-digit pattern,
is dropped by the oracle post-filter and so never reaches persistence; and
save_transactions itself skips, without effect, any candidate whose
merchant or amount is falsy. -/
theorem candidate_filter_correct :
    ∀ env : Env,
      (∀ (text : String) (ft : FileType) (t : Candidate),
        (strIn "EXAMPLE_MERCHANT" (pyUpper (t.merchant.getD "")) = true ∨
         amtTruthy t.amount = false ∨
         dateShapeOk (t.date.getD "") = false) →
        t ∉ extract_chunk env text ft) ∧
      (∀ (f : String) (d : PaymentMethod) (t : Candidate) (rest : List Candidate)
          (s : DBState),
        (strTruthy t.merchant = false ∨ amtTruthy t.amount = false) →
        save_transactions env f d (t :: rest) s = save_transactions env f d rest s) := by
  intro env
  constructor
  · intro text ft t hbad hmem
    unfold extract_chunk at hmem
    cases ho : env.oracle_chunk text ft with
    | none => rw [ho] at hmem; cases hmem
    | some raw =>
      rw [ho] at hmem
      have hvalid : candidateValid t = true := (List.mem_filter.1 hmem).2
      simp only [candidateValid, Bool.and_eq_true, Bool.not_eq_eq_eq_not,
        Bool.not_true] at hvalid
      rcases hbad with h | h | h
      · rw [h] at hvalid; simp at hvalid
      · rw [h] at hvalid; simp at hvalid
      · rw [h] at hvalid; simp at hvalid
  · intro f d t rest s hbad
    have hguard : (strTruthy t.merchant && amtTruthy t.amount) = false := by
      rcases hbad with h | h <;> simp [h]
    simp only [save_transactions, hguard, Bool.false_eq_true, if_false]

/-- Witness for the hypothesis-bearing parts of the C7 theorem. -/
theorem candidate_filter_correct_witness :
    (candExample ∉ extract_chunk sampleEnv "row" FileType.CSV) ∧
    save_transactions sampleEnv "f.pdf" PaymentMethod.CASH [candNoMerchant] {} =
      save_transactions sampleEnv "f.pdf" PaymentMethod.CASH [] {} := by
  constructor
  · exact (candidate_filter_correct sampleEnv).1 "row" FileType.CSV candExample
      (Or.inl (by decide))
  · exact (candidate_filter_correct sampleEnv).2 "f.pdf" PaymentMethod.CASH
      candNoMerchant [] {} (Or.inl (by decide))

/-- C9 (no fragments, no persistence): when segmentation produces no
fragments — a CSV parse failure, an unrecognized extension, an empty CSV,
or a PDF whose pages have no tables and no truthy text — process_file
returns with the store untouched: nothing is persisted and the digest is
not recorded, so the file stays eligible for reprocessing. -/
theorem no_fragments_no_persistence :
    (∀ (env : Env) (bytes : List Nat) (name : String) (s : DBState),
      (segmentation env (env.parseDoc bytes (fileExt name)) = none ∨
       segmentation env (env.parseDoc bytes (fileExt name)) = some []) →
      process_file env bytes name s = s) ∧
    (∀ env : Env, segmentation env ParsedDoc.other = some []) ∧
    (∀ env : Env, segmentation env (ParsedDoc.csv (some [])) = some []) ∧
    (∀ env : Env, segmentation env (ParsedDoc.csv none) = none) ∧
    (∀ (env : Env) (pages : List Page),
      (∀ p ∈ pages, p.tables = [] ∧ (p.text = none ∨ p.text = some "")) →
      segmentation env (ParsedDoc.pdf pages) = some []) := by
  refine ⟨?_, fun _ => rfl, fun env => ?_, fun _ => rfl, ?_⟩
  · intro env bytes name s hseg
    unfold process_file
    by_cases hproc : is_file_processed s (get_file_hash env bytes) = true
    · rw [if_pos hproc]
    · rw [if_neg hproc]
      rcases hseg with h | h
      · simp [h]
      · simp [h]
  · simp [segmentation, chunksOf]
  · intro env pages hp
    simp only [segmentation, Option.some_inj]
    rw [List.flatMap_eq_nil_iff]
    intro p hmem
    rcases hp p hmem with ⟨htab, htext⟩
    unfold pageTasks
    rw [htab]
    rcases htext with h | h <;> simp [h]

/-- Witness for the hypothesis-bearing part of the C9 theorem. -/
theorem no_fragments_no_persistence_witness :
    (segmentation sampleEnv (sampleEnv.parseDoc [7] (fileExt "a.xyz")) = none ∨
     segmentation sampleEnv (sampleEnv.parseDoc [7] (fileExt "a.xyz")) = some []) ∧
    process_file sampleEnv [7] "a.xyz" {} = ({} : DBState) := by
  exact ⟨Or.inr (by decide),
    no_fragments_no_persistence.1 sampleEnv [7] "a.xyz" {} (Or.inr (by decide))⟩

/-- The invariant the store actually maintains: every amount that is
present (non-NULL) is nonnegative.  The stronger claimed invariant — every
persisted amount exists and is nonnegative — fails on NaN input, see the
C6 bug theorem below. -/
def amountInv (s : DBState) : Prop :=
  ∀ t ∈ s.transactions, ∀ q : ℚ, t.amount = some q → 0 ≤ q

/-- The SQL predicate `amount >= 0` on a stored row: NULL satisfies no
comparison. -/
def amountNonnegB (t : Txn) : Bool :=
  match t.amount with
  | some q => decide (0 ≤ q)
  | none => false

theorem pyAbs_nonneg (q : ℚ) : 0 ≤ pyAbs q := by
  unfold pyAbs
  by_cases h : q < 0
  · rw [if_pos h]
    exact le_of_lt (neg_pos.2 h)
  · rw [if_neg h]
    exact le_of_not_lt h

theorem clean_amount_nonneg {env : Env} {v : AmtVal} {amt : PyNum} {q : ℚ}
    (h : clean_amount env v = some amt) (hs : storedAmount amt = some q) : 0 ≤ q := by
  unfold clean_amount at h
  rcases Option.map_eq_some'.1 h with ⟨x, _, rfl⟩
  cases x with
  | fin q0 =>
    simp only [pyAbsNum, storedAmount, Option.some_inj] at hs
    rw [← hs]
    exact pyAbs_nonneg q0
  | nan => simp [pyAbsNum, storedAmount] at hs

theorem save_transactions_inv (env : Env) (f : String) (d : PaymentMethod) :
    ∀ (cands : List Candidate) (s : DBState), amountInv s →
      amountInv (save_transactions env f d cands s).1 := by
  intro cands
  induction cands with
  | nil => intro s hs; exact hs
  | cons t rest ih =>
    intro s hs
    simp only [save_transactions]
    by_cases hg : (strTruthy t.merchant && amtTruthy t.amount) = true
    · rw [if_pos hg]
      cases hclean : clean_amount env (t.amount.getD (.str "")) with
      | none => exact ih s hs
      | some amt =>
        by_cases hconf : (s.transactions.any (fun r =>
            r.transaction_id == resolve_tx_id env t amt && r.source_file == f)) = true
        · simp only [hconf, if_true]
          exact ih s hs
        · simp only [hconf, Bool.false_eq_true, if_false]
          apply ih
          intro x hx
          rcases List.mem_append.1 hx with hx | hx
          · exact hs x hx
          · rcases List.mem_singleton.1 hx with rfl
            intro q hq
            exact clean_amount_nonneg hclean hq
    · rw [if_neg hg]
      exact ih s hs

theorem run_updates_inv (tk : Option String) (s : DBState) (hs : amountInv s) :
    amountInv (run_updates tk s) := by
  intro t ht
  have h1 : sansCategory t ∈ (run_updates tk s).transactions.map sansCategory :=
    List.mem_map_of_mem sansCategory ht
  rw [show (run_updates tk s).transactions =
      applyUpdates s.transactions
        (sweepUpdates (sortRulesDesc s.category_map) (scopeRows tk s)) from rfl,
    sansCategory_applyUpdates] at h1
  rcases List.mem_map.1 h1 with ⟨y, hy, hEq⟩
  have hamt : y.amount = t.amount := by
    have h2 := congrArg Txn.amount hEq
    simpa [sansCategory] using h2
  intro q hq
  exact hs y hy q (by rw [hamt]; exact hq)

/-- The store-level guarantee that does hold: every present (non-NULL)
amount is the absolute value of a successfully parsed finite number, so it
is nonnegative, and this is established by save_transactions and preserved
by sweeping, teaching and full ingestion.  NaN input escapes it by being
stored NULL — see the C6 bug theorem. -/
theorem amount_null_or_nonneg :
    ∀ (env : Env) (s : DBState), amountInv s →
      (∀ (f : String) (d : PaymentMethod) (cands : List Candidate),
        amountInv (save_transactions env f d cands s).1) ∧
      (∀ tk : Option String, amountInv (run_updates tk s)) ∧
      (∀ kw cat : String, amountInv (teach kw cat s)) ∧
      (∀ (bytes : List Nat) (name : String), amountInv (process_file env bytes name s)) := by
  intro env s hs
  refine ⟨fun f d cands => save_transactions_inv env f d cands s hs,
    fun tk => run_updates_inv tk s hs, ?_, ?_⟩
  · intro kw cat
    exact run_updates_inv (some kw)
      { s with category_map := upsertRule (pyLower kw) cat s.category_map } hs
  · intro bytes name
    unfold process_file
    by_cases hproc : is_file_processed s (get_file_hash env bytes) = true
    · rw [if_pos hproc]; exact hs
    · rw [if_neg hproc]
      cases hseg : segmentation env (env.parseDoc bytes (fileExt name)) with
      | none => simp only [hseg]; exact hs
      | some tasks =>
        simp only [hseg]
        by_cases hemp : tasks.isEmpty = true
        · rw [if_pos hemp]; exact hs
        · rw [if_neg hemp]
          apply run_updates_inv
          intro x hx
          exact save_transactions_inv env name
            (detectedMethod env (env.parseDoc bytes (fileExt name)) name)
            (tasks.flatMap fun t => extract_chunk env t.1 t.2) s hs x hx

/-- A candidate whose amount is the string nan: truthy, so it passes the
db.py guard, and `float` parses it successfully. -/
def candNan : Candidate :=
  { merchant := some "SHOP", amount := some (.str "nan"),
    date := some "2024-01-01" }

/-- C6 (amount sign invariant) — the code violates it.  Python
`float("nan")` succeeds (a JSON `NaN` amount behaves identically, since
the code feeds `str(amount)` to `float`), the candidate is truthy so the
guard does not skip it, it even passes the oracle post-filter, `abs`
leaves NaN in place, and the row is inserted with count 1 — sqlite3 stores
the NaN binding as NULL, and a NULL amount satisfies no `amount >= 0`
predicate.  The theorem evaluates the pipeline at that failing input: the
nan literal parses, the candidate passes the extract_chunk filter, the row
is persisted with a NULL amount, and the claimed invariant is false of the
resulting store. -/
theorem amount_sign_invariant_nan_bug :
    pyFloat "nan" = some PyNum.nan ∧
    candidateValid candNan = true ∧
    (save_transactions sampleEnv "f.pdf" PaymentMethod.CASH [candNan] {}).2 = 1 ∧
    (save_transactions sampleEnv "f.pdf" PaymentMethod.CASH
      [candNan] {}).1.transactions.map Txn.amount = [none] ∧
    (save_transactions sampleEnv "f.pdf" PaymentMethod.CASH
      [candNan] {}).1.transactions.all amountNonnegB = false := by
  refine ⟨by decide, by decide, by decide, by decide, by decide⟩

/-- C2 (deterministic synthetic identity): two candidates without a
transaction_id but with identical date, merchant and normalized amount
synthesize the same GEN- pseudo-id (the hash input concatenates exactly
those three renderings), and therefore submitting both in one
save_transactions call under one source_file changes the store exactly as
submitting the first alone — the second insert is ignored by the composite
key. -/
theorem synthetic_id_dedup :
    ∀ (env : Env) (c1 c2 : Candidate) (amt : PyNum) (f : String) (d : PaymentMethod)
      (s : DBState),
      strTruthy c1.merchant = true → amtTruthy c1.amount = true →
      (c1.transaction_id = none ∨ c1.transaction_id = some "") →
      (c2.transaction_id = none ∨ c2.transaction_id = some "") →
      c1.date = c2.date → c1.merchant = c2.merchant →
      clean_amount env (c1.amount.getD (.str "")) = some amt →
      clean_amount env (c2.amount.getD (.str "")) = some amt →
      resolve_tx_id env c1 amt = resolve_tx_id env c2 amt ∧
      save_transactions env f d [c1, c2] s = save_transactions env f d [c1] s := by
  intro env c1 c2 amt f d s h1m h1a hid1 hid2 hdate hmerch hc1 hc2
  have hgen : gen_pseudo_id env c1 amt = gen_pseudo_id env c2 amt := by
    unfold gen_pseudo_id
    rw [hdate, hmerch]
  have hT : resolve_tx_id env c1 amt = resolve_tx_id env c2 amt := by
    unfold resolve_tx_id
    rcases hid1 with h | h <;> rcases hid2 with h2 | h2 <;> rw [h, h2] <;> simp [hgen]
  have h2m : strTruthy c2.merchant = true := by rw [← hmerch]; exact h1m
  refine ⟨hT, ?_⟩
  by_cases hconf : (s.transactions.any (fun r =>
      r.transaction_id == resolve_tx_id env c1 amt && r.source_file == f)) = true
  · by_cases hat2 : amtTruthy c2.amount = true
    · simp only [save_transactions, h1m, h1a, h2m, hat2, Bool.and_self, if_true,
        hc1, hc2, ← hT, hconf]
    · simp only [save_transactions, h1m, h1a, h2m, hat2, Bool.and_self, Bool.and_false,
        if_true, Bool.false_eq_true, if_false, hc1, hconf]
  · have hcf : (s.transactions.any (fun r =>
        r.transaction_id == resolve_tx_id env c1 amt && r.source_file == f)) = false := by
      simpa using hconf
    by_cases hat2 : amtTruthy c2.amount = true
    · simp only [save_transactions, h1m, h1a, h2m, hat2, Bool.and_self, if_true,
        hc1, hc2, ← hT, hcf, Bool.false_eq_true, if_false, List.any_append,
        List.any_cons, List.any_nil, Bool.or_false, insertedRow, beq_self_eq_true,
        Bool.and_self, Bool.or_true, if_true]
    · simp only [save_transactions, h1m, h1a, h2m, hat2, Bool.and_self, Bool.and_false,
        if_true, Bool.false_eq_true, if_false, hc1, hcf]

/-- Id-less duplicate candidates with different decimal spellings of the
same amount. -/
def candDupA : Candidate :=
  { date := some "2024-03-04", merchant := some "SHOP A",
    amount := some (.str "99"), notes := some "first" }

def candDupB : Candidate :=
  { date := some "2024-03-04", merchant := some "SHOP A",
    amount := some (.str "99.00"), notes := some "second" }

/-- Witness for the C2 theorem: two concrete id-less candidates with equal
date, merchant and normalized amount (written with different decimal
spellings) collapse to one inserted row. -/
theorem synthetic_id_dedup_witness :
    resolve_tx_id sampleEnv candDupA (PyNum.fin (mkRat 99 1)) =
      resolve_tx_id sampleEnv candDupB (PyNum.fin (mkRat 99 1)) ∧
    save_transactions sampleEnv "f.pdf" PaymentMethod.CASH [candDupA, candDupB] {} =
      save_transactions sampleEnv "f.pdf" PaymentMethod.CASH [candDupA] {} := by
  exact synthetic_id_dedup sampleEnv candDupA candDupB (PyNum.fin (mkRat 99 1)) "f.pdf"
    PaymentMethod.CASH {} (by decide) (by decide) (Or.inl rfl) (Or.inl rfl)
    rfl rfl (by decide) (by decide)

/-- A PDF page with one extractable data row, for the C1 environment. -/
def pageW : Page :=
  { tables := [[[some "2024-01-02", some "COFFEE", some "250"]]], text := some "hello" }

/-- An environment in which the same bytes parse as an unreadable CSV under
a .csv name but as a table-bearing PDF under a .pdf name — exactly what
happens when a PDF file is first submitted with a wrong extension. -/
def envSwitch : Env :=
  { sampleEnv with
    parseDoc := fun _ ext => if ext == "csv" then ParsedDoc.csv none else ParsedDoc.pdf [pageW] }

/-- C1 counterexample: byte-identical content, two calls under different
filenames.  The first call (extension csv) aborts on the CSV parse error
and records nothing, so the second call (extension pdf) extracts and
persists a transaction and writes the processed-file record — refuting
that a second call on byte-identical content never persists and never
writes state. -/
theorem ingestion_idempotent_counterexample :
    process_file envSwitch [7] "a.csv" {} = ({} : DBState) ∧
    (process_file envSwitch [7] "b.pdf"
      (process_file envSwitch [7] "a.csv" {})).transactions.length = 1 ∧
    (process_file envSwitch [7] "b.pdf"
      (process_file envSwitch [7] "a.csv" {})).processed_files ≠ [] := by
  refine ⟨by decide, by decide, by decide⟩

/-- C1 amended: the content digest is a function of the byte stream alone
(the 8192-byte chunked reading hashes exactly the concatenated bytes), and
once a call has recorded that digest — in particular after any completed
ingestion — every later call on byte-identical content, under any
filename, returns at the is_file_processed guard with the store untouched. -/
theorem ingestion_idempotent_after_digest_log :
    ∀ (env : Env) (bytes : List Nat) (f1 f2 : String) (s : DBState),
      get_file_hash env bytes = env.md5_bytes bytes ∧
      (is_file_processed s (get_file_hash env bytes) = true →
        process_file env bytes f2 s = s) ∧
      (is_file_processed (process_file env bytes f1 s) (get_file_hash env bytes) = true →
        process_file env bytes f2 (process_file env bytes f1 s) =
          process_file env bytes f1 s) := by
  intro env bytes f1 f2 s
  have hkey : ∀ s2 : DBState, is_file_processed s2 (get_file_hash env bytes) = true →
      process_file env bytes f2 s2 = s2 := by
    intro s2 h
    unfold process_file
    rw [if_pos h]
  refine ⟨?_, hkey s, hkey _⟩
  unfold get_file_hash
  rw [join_chunksOf]

/-- Witness for the hypothesis-bearing C1 theorem: after a completed
ingestion the digest is recorded and the repeat call under another
filename is the identity. -/
theorem ingestion_idempotent_after_digest_log_witness :
    is_file_processed (process_file envSwitch [7] "a.pdf" {})
      (get_file_hash envSwitch [7]) = true ∧
    process_file envSwitch [7] "b.pdf" (process_file envSwitch [7] "a.pdf" {}) =
      process_file envSwitch [7] "a.pdf" {} := by
  exact ⟨by decide,
    (ingestion_idempotent_after_digest_log envSwitch [7] "a.pdf" "b.pdf" {}).2.2 (by decide)⟩

end SmartFinanza
